import Mathlib

/-!
Shallow embedding of the arcadia-app extension-store frontend
(`src/lib/extensions.ts`, `src/hooks/use-extension-store.ts`,
`src/hooks/use-store-sources.ts`, `src/hooks/use-extensions.ts`)
together with theorems about its version comparison, permission and
extension-type validation, store-source management, pagination and
update detection.
-/

/-! ## Version comparison (`src/lib/extensions.ts`, `compareVersions`) -/

/-- Character-level model of the JavaScript `v.split('.')` used by
`compareVersions`: splitting a character list at every `'.'`, keeping
empty segments (`"".split('.') == [""]`, `"1..2".split('.') == ["1","","2"]`). -/
def splitOnDot : List Char → List (List Char)
  | [] => [[]]
  | c :: rest =>
    match splitOnDot rest with
    | [] => [[]]
    | seg :: segs => if c = '.' then [] :: seg :: segs else (c :: seg) :: segs

/-- Numeric value of one version segment, modelling the combined effect of
`Number(seg)` followed by the `|| 0` coercion in the loop of
`compareVersions`: a string of digits evaluates to its decimal value
(`Number("") == 0`, and `0 || 0 == 0`), and any segment that is not a plain
digit string yields `NaN`, which `|| 0` turns into `0`. -/
def segValue (seg : List Char) : Nat :=
  if seg.all (fun c => c.isDigit) then
    seg.foldl (fun n c => n * 10 + (c.toNat - 48)) 0
  else 0

/-- The list of numeric parts of a version string:
`v.split('.').map(Number)` with the later `|| 0` coercion applied,
so that out-of-range access can be modelled by `List.getD _ _ 0`. -/
def parseSegments (v : String) : List Nat :=
  (splitOnDot v.toList).map segValue

/-- The comparison loop of `compareVersions`: `fuel` is the number of
remaining iterations (`maxLength - i`), `i` the current index, and
`partsK.getD i 0` models `partsK[i] || 0`. -/
def compareLoop (parts1 parts2 : List Nat) (i : Nat) : Nat → Int
  | 0 => 0
  | fuel + 1 =>
    let part1 := parts1.getD i 0
    let part2 := parts2.getD i 0
    if part1 < part2 then -1
    else if part1 > part2 then 1
    else compareLoop parts1 parts2 (i + 1) fuel

/-- `compareVersions(v1, v2)` from `src/lib/extensions.ts`: split both
strings on `'.'`, convert segments to numbers, and compare index by index
up to the longer length, treating missing entries as `0`. -/
def compareVersions (v1 v2 : String) : Int :=
  let parts1 := parseSegments v1
  let parts2 := parseSegments v2
  let maxLength := max parts1.length parts2.length
  compareLoop parts1 parts2 0 maxLength

/-- `isVersionGreater(v1, v2)` from `src/lib/extensions.ts`:
`compareVersions(v1, v2) > 0`. -/
def isVersionGreater (v1 v2 : String) : Bool :=
  compareVersions v1 v2 > 0

theorem compareLoop_eq_zero (l1 l2 : List Nat)
    (h : ∀ j, l1.getD j 0 = l2.getD j 0) :
    ∀ (fuel i : Nat), compareLoop l1 l2 i fuel = 0 := by
  intro fuel
  induction fuel with
  | zero => intro i; rfl
  | succ n ih =>
    intro i
    simp only [compareLoop, h i, lt_irrefl, gt_iff_lt, if_false]
    exact ih (i + 1)

theorem compareLoop_neg (l1 l2 : List Nat) :
    ∀ (fuel i : Nat), compareLoop l1 l2 i fuel = -compareLoop l2 l1 i fuel := by
  intro fuel
  induction fuel with
  | zero => intro i; rfl
  | succ n ih =>
    intro i
    simp only [compareLoop, gt_iff_lt]
    rcases lt_trichotomy (l1.getD i 0) (l2.getD i 0) with hlt | heq | hgt
    · rw [if_pos hlt, if_neg (lt_asymm hlt), if_pos hlt]
    · rw [heq]
      simp only [lt_irrefl, if_false]
      exact ih (i + 1)
    · rw [if_neg (lt_asymm hgt), if_pos hgt, if_pos hgt]
      rfl

theorem getD_replicate_zero (k j : Nat) : (List.replicate k 0).getD j 0 = 0 := by
  induction k generalizing j with
  | zero => simp [List.getD]
  | succ n ih =>
    cases j with
    | zero => rfl
    | succ j => simp [List.replicate_succ, List.getD_cons_succ, ih j]

theorem getD_append_replicate_zero (l : List Nat) (k j : Nat) :
    (l ++ List.replicate k 0).getD j 0 = l.getD j 0 := by
  rcases Nat.lt_or_ge j l.length with h | h
  · exact List.getD_append l _ 0 j h
  · rw [List.getD_eq_default l 0 h, List.getD_append_right l _ 0 j h]
    exact getD_replicate_zero k (j - l.length)

/-- C1: if the numeric parts of `b` are the numeric parts of `a` with extra
trailing `0` segments appended, then `compareVersions a b = 0`: missing
trailing segments are treated as `0`. -/
theorem compareVersions_trailing_zeros (a b : String) (k : Nat)
    (h : parseSegments b = parseSegments a ++ List.replicate k 0) :
    compareVersions a b = 0 := by
  unfold compareVersions
  rw [h]
  exact compareLoop_eq_zero _ _
    (fun j => (getD_append_replicate_zero (parseSegments a) k j).symm) _ 0

/-- Witness for C1 at the spec's example: `"1.2.0"` is `"1.2"` with one
trailing `0` segment, and `compareVersions "1.2" "1.2.0" = 0`. -/
theorem compareVersions_trailing_zeros_witness :
    parseSegments "1.2.0" = parseSegments "1.2" ++ List.replicate 1 0 ∧
      compareVersions "1.2" "1.2.0" = 0 :=
  ⟨by decide, compareVersions_trailing_zeros "1.2" "1.2.0" 1 (by decide)⟩

/-- C2: `isVersionGreater remote installed` is `true` exactly when
`compareVersions remote installed > 0`, and segments are compared
numerically left to right, so `compareVersions "1.10.0" "1.9.9" = 1`
and `isVersionGreater "2.0.0" "1.9.9" = true`. -/
theorem isVersionGreater_iff_compare_pos :
    (∀ remote installed : String,
        isVersionGreater remote installed = true ↔ 0 < compareVersions remote installed)
    ∧ compareVersions "1.10.0" "1.9.9" = 1
    ∧ isVersionGreater "2.0.0" "1.9.9" = true := by
  refine ⟨fun remote installed => ?_, by decide, by decide⟩
  simp [isVersionGreater]

/-- C9: `compareVersions` is antisymmetric
(`compareVersions a b = -(compareVersions b a)`) and reflexive
(`compareVersions a a = 0`). -/
theorem compareVersions_antisymm_refl :
    (∀ a b : String, compareVersions a b = -compareVersions b a)
    ∧ (∀ a : String, compareVersions a a = 0) := by
  constructor
  · intro a b
    show compareLoop (parseSegments a) (parseSegments b) 0
        (max (parseSegments a).length (parseSegments b).length) =
      -compareLoop (parseSegments b) (parseSegments a) 0
        (max (parseSegments b).length (parseSegments a).length)
    rw [Nat.max_comm (parseSegments b).length (parseSegments a).length]
    exact compareLoop_neg _ _ _ 0
  · intro a
    exact compareLoop_eq_zero _ _ (fun _ => rfl) _ 0

/-! ## Permission validation (`src/lib/extensions.ts`, `isValidPermission`) -/

/-- The `validPermissions` array of `isValidPermission`. -/
def validPermissions : List String :=
  ["filesystem", "network", "database", "ui", "native"]

/-- `isValidPermission(permission)` from `src/lib/extensions.ts`:
`validPermissions.includes(permission)`. -/
def isValidPermission (permission : String) : Bool :=
  validPermissions.contains permission

/-- C3: `isValidPermission p` is `true` exactly when `p` is one of the five
strings of the closed PermissionKind enumeration, and `false` for every
other string. -/
theorem isValidPermission_iff (p : String) :
    isValidPermission p = true ↔
      p = "filesystem" ∨ p = "network" ∨ p = "database" ∨ p = "ui" ∨ p = "native" := by
  simp [isValidPermission, validPermissions, List.contains]

/-! ## Extension types (`src/lib/extensions.ts`, `getExtensionTypeFromString`) -/

/-- The `ExtensionType` enum of `src/lib/extensions.ts`. -/
inductive ExtensionType
  | Theme
  | DataSource
  | GameLibrary
deriving DecidableEq

/-- `getExtensionTypeFromString(type)` from `src/lib/extensions.ts`:
a `switch` over the three recognized strings whose `default` branch
returns `ExtensionType.Theme`. -/
def getExtensionTypeFromString (type : String) : ExtensionType :=
  match type with
  | "theme" => ExtensionType.Theme
  | "data_source" => ExtensionType.DataSource
  | "game_library" => ExtensionType.GameLibrary
  | _ => ExtensionType.Theme

/-- Counterexample to C4: `"plugin"` is outside the closed set
`{theme, data_source, game_library}`, yet `getExtensionTypeFromString`
does not fail on it: it returns the valid value `ExtensionType.Theme`. -/
theorem getExtensionTypeFromString_unknown_accepted :
    ("plugin" ≠ "theme" ∧ "plugin" ≠ "data_source" ∧ "plugin" ≠ "game_library")
    ∧ getExtensionTypeFromString "plugin" = ExtensionType.Theme := by
  decide

/-- C4 amended: for every string outside the closed set
`{theme, data_source, game_library}`, `getExtensionTypeFromString` falls
back to `ExtensionType.Theme` instead of failing with an error. -/
theorem getExtensionTypeFromString_unknown_default (s : String)
    (h1 : s ≠ "theme") (h2 : s ≠ "data_source") (h3 : s ≠ "game_library") :
    getExtensionTypeFromString s = ExtensionType.Theme := by
  unfold getExtensionTypeFromString
  split <;> simp_all

/-- Witness for the amended C4 at the concrete string `"widget"`. -/
theorem getExtensionTypeFromString_unknown_default_witness :
    getExtensionTypeFromString "widget" = ExtensionType.Theme :=
  getExtensionTypeFromString_unknown_default "widget" (by decide) (by decide) (by decide)

/-! ## Store sources (`src/hooks/use-store-sources.ts`) -/

/-- The `StoreSourceType` enum of `src/lib/extensions.ts`. -/
inductive StoreSourceType
  | Official
  | Community
  | ThirdParty
deriving DecidableEq

/-- The `StoreSource` record of `src/lib/extensions.ts`. -/
structure StoreSource where
  id : String
  name : String
  type : StoreSourceType
  base_url : String
  enabled : Bool
  priority : Int
deriving DecidableEq

/-- The comparator of `sort((a, b) => a.priority - b.priority)` as a
relation: `a` sorts no later than `b` when the comparator is non-positive. -/
def priorityLE (a b : StoreSource) : Prop := a.priority ≤ b.priority

instance : DecidableRel priorityLE := fun a b => Int.decLe a.priority b.priority

instance : IsTotal StoreSource priorityLE := ⟨fun a b => Int.le_total a.priority b.priority⟩

instance : IsTrans StoreSource priorityLE := ⟨fun _ _ _ h1 h2 => le_trans h1 h2⟩

/-- Model of `newSources.sort((a, b) => a.priority - b.priority)`:
ECMAScript `Array.prototype.sort` is a stable sort, and insertion sort is
a stable sort realising the same comparator. -/
def sortByPriority (sources : List StoreSource) : List StoreSource :=
  List.insertionSort priorityLE sources

/-- `fetchSources` of `use-store-sources.ts`, applied to the list the
backend returned: the new state is that list sorted by priority. -/
def fetchSources (newSources : List StoreSource) : List StoreSource :=
  sortByPriority newSources

/-- `updatePriority(sourceId, priority)` of `use-store-sources.ts`: set the
priority of the source with the given id, then re-sort by priority. -/
def updatePriority (sources : List StoreSource) (sourceId : String) (priority : Int) :
    List StoreSource :=
  sortByPriority
    (sources.map (fun s => if s.id = sourceId then { s with priority := priority } else s))

def srcA : StoreSource :=
  ⟨"a", "Source A", StoreSourceType.Official, "https://a.example", true, 1⟩

def srcB : StoreSource :=
  ⟨"b", "Source B", StoreSourceType.Community, "https://b.example", true, 1⟩

/-- Counterexample to C5: two sources with equal priority and distinct ids
keep their arrival order under `fetchSources`, whichever that order is, so
ties are not broken by source id (the result is not determined by the set
of sources alone). -/
theorem fetchSources_tie_not_broken_by_id :
    fetchSources [srcB, srcA] = [srcB, srcA]
    ∧ fetchSources [srcA, srcB] = [srcA, srcB]
    ∧ srcA.priority = srcB.priority ∧ srcA.id ≠ srcB.id := by
  decide

/-- C5 amended: the source list is sorted by ascending priority after the
initial fetch and after `updatePriority`; ties between equal-priority
sources keep their relative order (stable sort) rather than being broken
by source id. -/
theorem sources_sorted_by_priority (l : List StoreSource) (sourceId : String) (p : Int) :
    List.Sorted priorityLE (fetchSources l)
    ∧ List.Sorted priorityLE (updatePriority l sourceId p) :=
  ⟨List.sorted_insertionSort priorityLE l, List.sorted_insertionSort priorityLE _⟩

/-! ## Default query scope (`src/hooks/use-extension-store.ts`) -/

/-- The `StoreFilters` record of `src/lib/extensions.ts`; every field is
optional. -/
structure StoreFilters where
  extension_type : Option ExtensionType
  tags : Option (List String)
  search : Option String
  source_ids : Option (List String)
deriving DecidableEq

/-- `getEnabledSources()` of `use-store-sources.ts`:
`sources.filter((s) => s.enabled)`. -/
def getEnabledSources (sources : List StoreSource) : List StoreSource :=
  sources.filter (fun s => s.enabled)

/-- The filter-preparation step of `fetchExtensions` in
`use-extension-store.ts`: when `filters.source_ids` is not set, fill it
with the ids of the enabled sources. -/
def effectiveFilters (filters : StoreFilters) (sources : List StoreSource) : StoreFilters :=
  match filters.source_ids with
  | none => { filters with source_ids := some ((getEnabledSources sources).map (fun s => s.id)) }
  | some _ => filters

/-- C6: a query issued without an explicit `source_ids` filter is sent with
`source_ids` equal to the ids of exactly the enabled sources: an id is in
that list precisely when some enabled source in the list bears it, so
disabled sources are never included in the default. -/
theorem effectiveFilters_default_enabled (filters : StoreFilters) (sources : List StoreSource)
    (h : filters.source_ids = none) :
    (effectiveFilters filters sources).source_ids
        = some ((getEnabledSources sources).map (fun s => s.id))
    ∧ ∀ i : String,
        (i ∈ (getEnabledSources sources).map (fun s => s.id) ↔
          ∃ s ∈ sources, s.enabled = true ∧ s.id = i) := by
  constructor
  · unfold effectiveFilters
    rw [h]
  · intro i
    simp [getEnabledSources, List.mem_filter, List.mem_map]
    tauto

def noFilters : StoreFilters := ⟨none, none, none, none⟩

def srcOff : StoreSource :=
  ⟨"c", "Source C", StoreSourceType.ThirdParty, "https://c.example", false, 0⟩

/-- Witness for C6: with no `source_ids` filter and sources `[srcA, srcOff]`
(`srcOff` disabled), the effective filter carries exactly the enabled ids. -/
theorem effectiveFilters_default_enabled_witness :
    (effectiveFilters noFilters [srcA, srcOff]).source_ids
        = some ((getEnabledSources [srcA, srcOff]).map (fun s => s.id)) :=
  (effectiveFilters_default_enabled noFilters [srcA, srcOff] rfl).1

/-! ## Store pagination (`src/hooks/use-extension-store.ts`) -/

/-- The `StoreExtension` record of `src/lib/extensions.ts`. The JS
`number` fields are carried as opaque data: no arithmetic is performed
on them anywhere in the embedded code. -/
structure StoreExtension where
  id : String
  name : String
  version : String
  author : String
  description : String
  extension_type : ExtensionType
  source_id : String
  icon : Option String
  download_count : Nat
  rating : Int
  tags : List String
deriving DecidableEq

/-- `PAGE_SIZE` of `use-extension-store.ts`. -/
def PAGE_SIZE : Nat := 20

/-- The pagination state of the `useExtensionStore` hook: the accumulated
`extensions` list and the `currentPage` and `hasMore` state variables. -/
structure StoreState where
  extensions : List StoreExtension
  currentPage : Nat
  hasMore : Bool
deriving DecidableEq

/-- `fetchExtensions(reset)` of `use-extension-store.ts` with filters and
sort held fixed: `backend page limit` stands for the awaited
`fetchStoreExtensions(effectiveFilters, sort, page, limit)` call. On
`reset` the state is replaced by page `0`; otherwise the returned page is
appended and `currentPage` incremented; `hasMore` records whether the
returned page was full (`newExtensions.length === PAGE_SIZE`). -/
def fetchExtensionsStep (backend : Nat → Nat → List StoreExtension)
    (reset : Bool) (s : StoreState) : StoreState :=
  let page := if reset then 0 else s.currentPage
  let newExtensions := backend page PAGE_SIZE
  if reset then
    { extensions := newExtensions
      currentPage := 1
      hasMore := newExtensions.length == PAGE_SIZE }
  else
    { extensions := s.extensions ++ newExtensions
      currentPage := s.currentPage + 1
      hasMore := newExtensions.length == PAGE_SIZE }

/-- `loadMore()` of `use-extension-store.ts`: between awaited calls
`loading` is `false`, so the guard `!loading && hasMore` reduces to
`hasMore`; when it holds, `fetchExtensions(false)` runs. -/
def loadMore (backend : Nat → Nat → List StoreExtension) (s : StoreState) : StoreState :=
  if s.hasMore then fetchExtensionsStep backend false s else s

/-- Modelled from the spec: the backing store query (the
`fetch_store_extensions` Tauri command, whose Rust implementation is not
part of the frontend sources) paginates a stable catalog — "pagination
must be stable (same page/page_size on an unchanged catalog returns the
same slice)" — so page `p` of size `k` is the slice starting at `p * k`. -/
def stableBackend (catalog : List StoreExtension) (page limit : Nat) : List StoreExtension :=
  (catalog.drop (page * limit)).take limit

/-- C7: over a stable catalog, pages 0 and 1 of size `k` concatenate to the
first `2 * k` items (a prefix partition, hence no duplicated or missing
ids); the hook requests page 0 on reset and then consecutive pages,
appending each returned page in order and incrementing `currentPage`;
`loadMore` is a no-op when `hasMore` is false, and a fetch that returns
fewer than `PAGE_SIZE` items sets `hasMore` to false. -/
theorem store_pagination_prefix_partition
    (catalog : List StoreExtension) (k : Nat)
    (backend : Nat → Nat → List StoreExtension) (s : StoreState) :
    (stableBackend catalog 0 k ++ stableBackend catalog 1 k = catalog.take (2 * k))
    ∧ ((fetchExtensionsStep backend true s).extensions = backend 0 PAGE_SIZE
        ∧ (fetchExtensionsStep backend true s).currentPage = 1)
    ∧ (s.hasMore = true →
        (loadMore backend s).extensions = s.extensions ++ backend s.currentPage PAGE_SIZE
          ∧ (loadMore backend s).currentPage = s.currentPage + 1)
    ∧ (s.hasMore = false → loadMore backend s = s)
    ∧ ((backend s.currentPage PAGE_SIZE).length < PAGE_SIZE →
        (fetchExtensionsStep backend false s).hasMore = false) := by
  refine ⟨?_, ⟨rfl, rfl⟩, ?_, ?_, ?_⟩
  · show (catalog.drop (0 * k)).take k ++ (catalog.drop (1 * k)).take k = catalog.take (2 * k)
    rw [Nat.zero_mul, Nat.one_mul, List.drop_zero, two_mul, List.take_add]
  · intro h
    simp [loadMore, fetchExtensionsStep, h]
  · intro h
    simp [loadMore, h]
  · intro h
    simp [fetchExtensionsStep, Nat.ne_of_lt h]

def demoExt (n : String) : StoreExtension :=
  ⟨n, n, "1.0.0", "author", "demo", ExtensionType.Theme, "a", none, 0, 0, []⟩

def demoCatalog : List StoreExtension :=
  [demoExt "e1", demoExt "e2", demoExt "e3"]

def demoExhaustedState : StoreState :=
  ⟨demoCatalog, 1, false⟩

/-- Witness for C7: pages 0 and 1 of size 2 over `demoCatalog` partition
its 4-prefix, and `loadMore` is a no-op on a state with `hasMore = false`. -/
theorem store_pagination_prefix_partition_witness :
    (stableBackend demoCatalog 0 2 ++ stableBackend demoCatalog 1 2 = demoCatalog.take (2 * 2))
    ∧ loadMore (stableBackend demoCatalog) demoExhaustedState = demoExhaustedState :=
  ⟨(store_pagination_prefix_partition demoCatalog 2 (stableBackend demoCatalog)
      demoExhaustedState).1,
    (store_pagination_prefix_partition demoCatalog 2 (stableBackend demoCatalog)
      demoExhaustedState).2.2.2.1 rfl⟩

/-! ## Source removal (`src/hooks/use-store-sources.ts`, `removeSource`) -/

/-- The `ExtensionInfo` record of `src/lib/extensions.ts` (an installed
extension as reported by the registry). -/
structure ExtensionInfo where
  id : String
  name : String
  version : String
  author : Option String
  description : Option String
  extension_type : String
  enabled : Bool
deriving DecidableEq

/-- The client state relevant to source removal: the installed extensions
held by the `useExtensions` hook and the store sources held by
`useStoreSources`. -/
structure AppState where
  installedExtensions : List ExtensionInfo
  sources : List StoreSource
deriving DecidableEq

/-- `removeSource(sourceId)` of `use-store-sources.ts`:
`setSources(prev => prev.filter(s => s.id !== sourceId))`; the installed
extensions of the separate `useExtensions` hook are not touched. -/
def removeSource (st : AppState) (sourceId : String) : AppState :=
  { st with sources := st.sources.filter (fun s => !(s.id == sourceId)) }

/-- C8: `removeSource sourceId` leaves the installed extensions unchanged,
drops every source bearing `sourceId`, keeps every other source (in
order), and the removed source no longer appears among the enabled
sources used as the default query scope. -/
theorem removeSource_frame (st : AppState) (sourceId : String) :
    (removeSource st sourceId).installedExtensions = st.installedExtensions
    ∧ (∀ s ∈ (removeSource st sourceId).sources, s.id ≠ sourceId)
    ∧ (∀ s ∈ st.sources, s.id ≠ sourceId → s ∈ (removeSource st sourceId).sources)
    ∧ (removeSource st sourceId).sources.Sublist st.sources
    ∧ (∀ s ∈ getEnabledSources (removeSource st sourceId).sources, s.id ≠ sourceId) := by
  refine ⟨rfl, ?_, ?_, List.filter_sublist st.sources, ?_⟩
  · intro s hs
    have := (List.mem_filter.mp hs).2
    simpa using this
  · intro s hs hid
    exact List.mem_filter.mpr ⟨hs, by simpa using hid⟩
  · intro s hs
    have hmem := (List.mem_filter.mp hs).1
    have := (List.mem_filter.mp hmem).2
    simpa using this

def demoApp : AppState :=
  ⟨[⟨"ext1", "Ext 1", "1.0.0", none, none, "theme", true⟩], [srcA, srcOff]⟩

/-- Witness for C8 at a concrete state: removing source `"a"` from
`demoApp` keeps the installed extensions, keeps the unrelated source
`srcOff`, and `srcOff` (a member of the remaining sources) has id ≠ "a". -/
theorem removeSource_frame_witness :
    (removeSource demoApp "a").installedExtensions = demoApp.installedExtensions
    ∧ srcOff ∈ (removeSource demoApp "a").sources
    ∧ (removeSource demoApp "a").sources.Sublist demoApp.sources :=
  ⟨(removeSource_frame demoApp "a").1,
    (removeSource_frame demoApp "a").2.2.1 srcOff (by decide) (by decide),
    (removeSource_frame demoApp "a").2.2.2.1⟩

/-! ## Update detection (`src/hooks/use-extension-store.ts`, `isUpdateAvailable`) -/

/-- `getExtensionById(id)` of `use-extensions.ts`:
`extensions.find(ext => ext.id === id)`. -/
def getExtensionById (extensions : List ExtensionInfo) (id : String) : Option ExtensionInfo :=
  extensions.find? (fun ext => ext.id == id)

/-- `isUpdateAvailable(storeExtension)` of `use-extension-store.ts`: look
up the installed extension with the same id; if none is installed return
`false`, otherwise compare versions. -/
def isUpdateAvailable (installed : List ExtensionInfo)
    (storeExtension : StoreExtension) : Bool :=
  match getExtensionById installed storeExtension.id with
  | none => false
  | some installedExtension =>
      isVersionGreater storeExtension.version installedExtension.version

/-- C10: when no installed extension bears the store extension's id,
`isUpdateAvailable` returns `false`: an update is only ever reported for
an id that is currently installed. -/
theorem isUpdateAvailable_requires_installed (installed : List ExtensionInfo)
    (storeExtension : StoreExtension)
    (h : ∀ e ∈ installed, e.id ≠ storeExtension.id) :
    isUpdateAvailable installed storeExtension = false := by
  have hnone : getExtensionById installed storeExtension.id = none := by
    rw [getExtensionById, List.find?_eq_none]
    intro e he
    simpa using h e he
  simp [isUpdateAvailable, hnone]

def demoStoreExt : StoreExtension :=
  ⟨"ext2", "Ext 2", "2.0.0", "author", "demo", ExtensionType.Theme, "a", none, 0, 0, []⟩

/-- Witness for C10: `demoApp` installs only `"ext1"`, so no update is
reported for the store extension `"ext2"`. -/
theorem isUpdateAvailable_requires_installed_witness :
    isUpdateAvailable demoApp.installedExtensions demoStoreExt = false :=
  isUpdateAvailable_requires_installed demoApp.installedExtensions demoStoreExt (by decide)

/-- Witness for C3 at the concrete string `"native"`. -/
theorem isValidPermission_iff_witness :
    isValidPermission "native" = true ↔
      "native" = "filesystem" ∨ "native" = "network" ∨ "native" = "database"
        ∨ "native" = "ui" ∨ "native" = "native" :=
  isValidPermission_iff "native"

/-- Witness for the amended C5 at a concrete source list and priority
update. -/
theorem sources_sorted_by_priority_witness :
    List.Sorted priorityLE (fetchSources [srcB, srcA])
    ∧ List.Sorted priorityLE (updatePriority [srcB, srcA] "a" 5) :=
  sources_sorted_by_priority [srcB, srcA] "a" 5
